import Mathlib

/-!
Verification of the EJTP router core (`ejtp/router.py`) and identity
deserialization (`ejtp/identity/core.py`), as a shallow embedding.

Python values appearing in addresses are modelled by the inductive type
`PyVal` (scalars, `None`, lists, tuples).  Python's `==` distinguishes
lists from tuples, which `PyVal.beq` reflects.  Dicts are modelled as
association lists whose insert overwrites in place and whose iteration
follows list order (one admissible realisation of the implementation's
unspecified dict iteration order).
-/

inductive PyVal : Type where
  | str (s : String)
  | int (n : Int)
  | pynone
  | list (xs : List PyVal)
  | tuple (xs : List PyVal)
deriving Repr

mutual

/-- Python structural equality on modelled values: a list never equals a
tuple, scalars compare by value. -/
def PyVal.beq : PyVal → PyVal → Bool
  | .str a, .str b => a == b
  | .int a, .int b => a == b
  | .pynone, .pynone => true
  | .list xs, .list ys => PyVal.beqList xs ys
  | .tuple xs, .tuple ys => PyVal.beqList xs ys
  | _, _ => false

/-- Elementwise equality of value sequences. -/
def PyVal.beqList : List PyVal → List PyVal → Bool
  | [], [] => true
  | x :: xs, y :: ys => PyVal.beq x y && PyVal.beqList xs ys
  | _, _ => false

end

mutual

theorem PyVal.beq_iff : ∀ a b : PyVal, PyVal.beq a b = true ↔ a = b
  | .str a, .str b => by simp [PyVal.beq]
  | .str _, .int _ => by simp [PyVal.beq]
  | .str _, .pynone => by simp [PyVal.beq]
  | .str _, .list _ => by simp [PyVal.beq]
  | .str _, .tuple _ => by simp [PyVal.beq]
  | .int _, .str _ => by simp [PyVal.beq]
  | .int a, .int b => by simp [PyVal.beq]
  | .int _, .pynone => by simp [PyVal.beq]
  | .int _, .list _ => by simp [PyVal.beq]
  | .int _, .tuple _ => by simp [PyVal.beq]
  | .pynone, .str _ => by simp [PyVal.beq]
  | .pynone, .int _ => by simp [PyVal.beq]
  | .pynone, .pynone => by simp [PyVal.beq]
  | .pynone, .list _ => by simp [PyVal.beq]
  | .pynone, .tuple _ => by simp [PyVal.beq]
  | .list _, .str _ => by simp [PyVal.beq]
  | .list _, .int _ => by simp [PyVal.beq]
  | .list _, .pynone => by simp [PyVal.beq]
  | .list xs, .list ys => by
      simp [PyVal.beq, PyVal.beqList_iff xs ys]
  | .list _, .tuple _ => by simp [PyVal.beq]
  | .tuple _, .str _ => by simp [PyVal.beq]
  | .tuple _, .int _ => by simp [PyVal.beq]
  | .tuple _, .pynone => by simp [PyVal.beq]
  | .tuple _, .list _ => by simp [PyVal.beq]
  | .tuple xs, .tuple ys => by
      simp [PyVal.beq, PyVal.beqList_iff xs ys]

theorem PyVal.beqList_iff : ∀ as bs : List PyVal, PyVal.beqList as bs = true ↔ as = bs
  | [], [] => by simp [PyVal.beqList]
  | [], _ :: _ => by simp [PyVal.beqList]
  | _ :: _, [] => by simp [PyVal.beqList]
  | a :: as, b :: bs => by
      simp [PyVal.beqList, PyVal.beq_iff a b, PyVal.beqList_iff as bs]

end

instance : DecidableEq PyVal := fun a b =>
  decidable_of_iff _ (PyVal.beq_iff a b)

mutual

/-- `rtuple` from `router.py`: convert lists (and tuples) into tuples
recursively; anything that is not a list or tuple is returned unchanged. -/
def rtuple : PyVal → PyVal
  | .list xs => .tuple (rtupleList xs)
  | .tuple xs => .tuple (rtupleList xs)
  | .str s => .str s
  | .int n => .int n
  | .pynone => .pynone

/-- `rtuple` mapped over the elements of a sequence (the list
comprehension `[rtuple(i) for i in obj]`). -/
def rtupleList : List PyVal → List PyVal
  | [] => []
  | x :: xs => rtuple x :: rtupleList xs

end

mutual

/-- Two values have the same structure when they are the same nesting of
sequences of equal scalars, irrespective of which sequences are lists and
which are tuples. -/
def sameStructure : PyVal → PyVal → Bool
  | .list xs, .list ys => sameStructureList xs ys
  | .list xs, .tuple ys => sameStructureList xs ys
  | .tuple xs, .list ys => sameStructureList xs ys
  | .tuple xs, .tuple ys => sameStructureList xs ys
  | .str a, .str b => a == b
  | .int a, .int b => a == b
  | .pynone, .pynone => true
  | _, _ => false

/-- Elementwise `sameStructure` on sequences. -/
def sameStructureList : List PyVal → List PyVal → Bool
  | [], [] => true
  | x :: xs, y :: ys => sameStructure x y && sameStructureList xs ys
  | _, _ => false

end

/-- Python exceptions that escape the modelled code. -/
inductive PyErr : Type where
  | indexError
  | valueError
deriving DecidableEq, Repr

/-- Association-list model of a Python dict: `dictGet` is `d[k]` guarded
by `k in d`. -/
def dictGet {K V : Type} [DecidableEq K] (k : K) : List (K × V) → Option V
  | [] => none
  | (k', v) :: rest => if k = k' then some v else dictGet k rest

/-- `d[k] = v`: overwrite in place when the key is present, append
otherwise. -/
def dictInsert {K V : Type} [DecidableEq K] (k : K) (v : V) :
    List (K × V) → List (K × V)
  | [] => [(k, v)]
  | (k', v') :: rest =>
      if k = k' then (k, v) :: rest else (k', v') :: dictInsert k v rest

/-- An adapter ("jack"): an opaque recipient with lifecycle controls,
identified by `jid` and declaring an interface address. -/
structure Jack : Type where
  jid : Nat
  interface : List PyVal
deriving DecidableEq, Repr

/-- A client: an opaque recipient identified by `cid`, declaring an
interface address. -/
structure Client : Type where
  cid : Nat
  interface : List PyVal
deriving DecidableEq, Repr

/-- Modelled from the spec: the externally produced `Frame`
(`frame.py` is not part of the sources) exposes a one-character kind
(`type`) and an address sequence (`addr`). -/
structure Frame : Type where
  type : String
  addr : List PyVal
deriving DecidableEq, Repr

/-- Modelled from the spec: an input to `recv` together with the outcome
of the external frame parser on it — `str` is the string rendering
(`str(msg)`), `parsed` is `some f` when `Frame(msg)` succeeds and `none`
when it raises. -/
structure Msg : Type where
  str : String
  parsed : Option Frame
deriving DecidableEq, Repr

/-- Identifies the recipient whose `route` method is invoked. -/
inductive Recipient : Type where
  | clientR (cid : Nat)
  | jackR (jid : Nat)
deriving DecidableEq, Repr

/-- Observable effects of router operations on its collaborators:
`run_threaded`/`close` calls on jacks, `route` calls on recipients, and
the diagnostic prints. -/
inductive Event : Type where
  | runThreaded (jid : Nat)
  | close (jid : Nat)
  | route (who : Recipient)
  | printParseFail
  | printNoDeliver
  | printSent
deriving DecidableEq, Repr

/-- The router state: lifecycle string, the two registries, and the
activity log. -/
structure Router : Type where
  runstate : String
  jacks : List (PyVal × Jack)
  clients : List (PyVal × Client)
  logging : Bool
  log : List String
deriving DecidableEq, Repr

/-- `Router.log_add`: append `str(msg)` to the activity log when logging
is enabled. -/
def Router.log_add (r : Router) (s : String) : Router :=
  if r.logging then { r with log := r.log ++ [s] } else r

/-- The loop body of `Router.jack`: iterate the `_jacks` dict, unpack
each key as `(t, l)`, and return the first jack whose `t` equals
`addr[0]`.  `addr[0]` on an empty address raises `IndexError`; a stored
key that is not a pair fails to unpack (`ValueError`). -/
def jackFind : List (PyVal × Jack) → List PyVal → Except PyErr (Option Jack)
  | [], _ => .ok none
  | (k, j) :: rest, addr =>
      match k with
      | .tuple [t, _] =>
          match addr with
          | [] => .error .indexError
          | a0 :: _ => if t = a0 then .ok (some j) else jackFind rest addr
      | _ => .error .valueError

/-- `Router.jack`: return a jack registered with the transport type of
`addr`, or `None`; may raise. -/
def Router.jack (r : Router) (addr : List PyVal) : Except PyErr (Option Jack) :=
  jackFind r.jacks addr

/-- The client key `rtuple(xs[:3])` (also the adapter key with `n = 2`):
canonicalize the first `n` components. -/
def sliceKey (n : Nat) (xs : List PyVal) : PyVal :=
  rtuple (.list (xs.take n))

/-- `Router.client`: exact lookup of `rtuple(addr[:3])` in the client
registry, or `None`. -/
def Router.client (r : Router) (addr : List PyVal) : Option Client :=
  dictGet (sliceKey 3 addr) r.clients

/-- `Router.recv`: log the raw input, parse it, and dispatch routed
frames to the client registered at the address, else to a jack of its
transport type.  Returns the updated router, the emitted events, and the
uncaught exception if one escapes (`Guard` swallows failures of the
recipient's `route`, so only the adapter lookup can raise here). -/
def Router.recv (r : Router) (msg : Msg) : Router × List Event × Option PyErr :=
  let r1 := r.log_add msg.str
  match msg.parsed with
  | none => (r1, [.printParseFail], none)
  | some f =>
      if f.type = "r" then
        match r1.client f.addr with
        | some c => (r1, [.route (.clientR c.cid)], none)
        | none =>
            match r1.jack f.addr with
            | .error e => (r1, [], some e)
            | .ok (some j) => (r1, [.route (.jackR j.jid)], none)
            | .ok none => (r1, [.printNoDeliver], none)
      else if f.type = "s" then (r1, [.printSent], none)
      else (r1, [], none)

/-- `Router.thread_all`: call `run_threaded` on every registered jack. -/
def Router.thread_all (r : Router) : List Event :=
  r.jacks.map (fun p => .runThreaded p.2.jid)

/-- `Router.stop_all`: call `close` on every registered jack. -/
def Router.stop_all (r : Router) : List Event :=
  r.jacks.map (fun p => .close p.2.jid)

/-- `Router.run`: start all jacks on a `stopped → "threaded"` request,
stop all jacks on a `"stopped"` request, and record the requested level
as the new runstate unconditionally. -/
def Router.run (r : Router) (level : String) : Router × List Event :=
  let evs :=
    if level = "threaded" then
      if r.runstate = "stopped" then r.thread_all else []
    else if level = "stopped" then r.stop_all
    else []
  ({ r with runstate := level }, evs)

/-- `Router._loadjack`: register a jack under `rtuple(interface[:2])`
and start it immediately when the router is already threaded. -/
def Router.loadjack (r : Router) (j : Jack) : Router × List Event :=
  let key := sliceKey 2 j.interface
  ({ r with jacks := dictInsert key j r.jacks },
   if r.runstate = "threaded" then [.runThreaded j.jid] else [])

/-- `Router._loadclient`: register a client under
`rtuple(interface[:3])`. -/
def Router.loadclient (r : Router) (c : Client) : Router :=
  { r with clients := dictInsert (sliceKey 3 c.interface) c r.clients }

/-- `Router._loadjacks`: register each jack in order. -/
def Router.loadjacks (r : Router) (js : List Jack) : Router × List Event :=
  js.foldl
    (fun acc j =>
      let st := acc.1.loadjack j
      (st.1, acc.2 ++ st.2))
    (r, [])

/-- `Router._loadclients`: register each client in order. -/
def Router.loadclients (r : Router) (cs : List Client) : Router :=
  cs.foldl (fun acc c => acc.loadclient c) r

/-- `Router.__init__`: start stopped with empty registries, load the
given jacks and clients, enable logging, and call `run()` (which
defaults to level `"threaded"`). -/
def Router.init (js : List Jack) (cs : List Client) : Router × List Event :=
  let r0 : Router :=
    { runstate := "stopped", jacks := [], clients := [], logging := true,
      log := [] }
  let st1 := r0.loadjacks js
  let r2 := st1.1.loadclients cs
  let st3 := r2.run "threaded"
  (st3.1, st1.2 ++ st3.2)

/-- The operations a caller can perform on a live router. -/
inductive Op : Type where
  | recvOp (m : Msg)
  | loadjackOp (j : Jack)
  | loadclientOp (c : Client)
  | runOp (level : String)
deriving DecidableEq, Repr

/-- State reached after one operation (exceptions escaping `recv` leave
the already-updated object state behind, as in Python). -/
def applyOp (r : Router) : Op → Router
  | .recvOp m => (r.recv m).1
  | .loadjackOp j => (r.loadjack j).1
  | .loadclientOp c => r.loadclient c
  | .runOp level => (r.run level).1

/-- State reached after a sequence of operations. -/
def applyOps (r : Router) (ops : List Op) : Router :=
  ops.foldl applyOp r

/-! ### Lemmas about canonicalization -/

mutual

theorem rtuple_idem : ∀ a : PyVal, rtuple (rtuple a) = rtuple a
  | .list xs => by simp [rtuple, rtupleList_idem xs]
  | .tuple xs => by simp [rtuple, rtupleList_idem xs]
  | .str _ => rfl
  | .int _ => rfl
  | .pynone => rfl

theorem rtupleList_idem : ∀ xs : List PyVal,
    rtupleList (rtupleList xs) = rtupleList xs
  | [] => rfl
  | x :: xs => by simp [rtupleList, rtuple_idem x, rtupleList_idem xs]

end

mutual

theorem rtuple_congr : ∀ a b : PyVal, sameStructure a b = true →
    rtuple a = rtuple b
  | .list xs, .list ys, h => by
      simp only [sameStructure] at h
      simp [rtuple, rtupleList_congr xs ys h]
  | .list xs, .tuple ys, h => by
      simp only [sameStructure] at h
      simp [rtuple, rtupleList_congr xs ys h]
  | .tuple xs, .list ys, h => by
      simp only [sameStructure] at h
      simp [rtuple, rtupleList_congr xs ys h]
  | .tuple xs, .tuple ys, h => by
      simp only [sameStructure] at h
      simp [rtuple, rtupleList_congr xs ys h]
  | .str a, .str b, h => by
      simp only [sameStructure, beq_iff_eq] at h
      simp [h]
  | .int a, .int b, h => by
      simp only [sameStructure, beq_iff_eq] at h
      simp [h]
  | .pynone, .pynone, _ => rfl
  | .str _, .int _, h => by simp [sameStructure] at h
  | .str _, .pynone, h => by simp [sameStructure] at h
  | .str _, .list _, h => by simp [sameStructure] at h
  | .str _, .tuple _, h => by simp [sameStructure] at h
  | .int _, .str _, h => by simp [sameStructure] at h
  | .int _, .pynone, h => by simp [sameStructure] at h
  | .int _, .list _, h => by simp [sameStructure] at h
  | .int _, .tuple _, h => by simp [sameStructure] at h
  | .pynone, .str _, h => by simp [sameStructure] at h
  | .pynone, .int _, h => by simp [sameStructure] at h
  | .pynone, .list _, h => by simp [sameStructure] at h
  | .pynone, .tuple _, h => by simp [sameStructure] at h
  | .list _, .str _, h => by simp [sameStructure] at h
  | .list _, .int _, h => by simp [sameStructure] at h
  | .list _, .pynone, h => by simp [sameStructure] at h
  | .tuple _, .str _, h => by simp [sameStructure] at h
  | .tuple _, .int _, h => by simp [sameStructure] at h
  | .tuple _, .pynone, h => by simp [sameStructure] at h

theorem rtupleList_congr : ∀ xs ys : List PyVal,
    sameStructureList xs ys = true → rtupleList xs = rtupleList ys
  | [], [], _ => rfl
  | [], _ :: _, h => by simp [sameStructureList] at h
  | _ :: _, [], h => by simp [sameStructureList] at h
  | x :: xs, y :: ys, h => by
      simp only [sameStructureList, Bool.and_eq_true] at h
      simp [rtupleList, rtuple_congr x y h.1, rtupleList_congr xs ys h.2]

end

/-- C5: canonicalization (`rtuple`) is idempotent, sends nested-list and
nested-tuple forms of the same structure to the same tuple, and passes
any value that is not a list or tuple through unchanged. -/
theorem rtuple_canonicalize_spec :
    (∀ a : PyVal, rtuple (rtuple a) = rtuple a) ∧
    (∀ a b : PyVal, sameStructure a b = true → rtuple a = rtuple b) ∧
    (∀ s, rtuple (.str s) = .str s) ∧
    (∀ n, rtuple (.int n) = .int n) ∧
    rtuple .pynone = .pynone :=
  ⟨rtuple_idem, rtuple_congr, fun _ => rfl, fun _ => rfl, rfl⟩

/-- Witness for C5 at a concrete nested value: idempotence, and a
nested-list versus nested-tuple form of one structure canonicalizing
equal. -/
theorem rtuple_canonicalize_spec_witness :
    rtuple (rtuple (.list [.str "udp", .list [.int 1, .pynone]])) =
      rtuple (.list [.str "udp", .list [.int 1, .pynone]]) ∧
    rtuple (.list [.str "udp", .list [.int 1, .pynone]]) =
      rtuple (.tuple [.str "udp", .tuple [.int 1, .pynone]]) :=
  ⟨rtuple_canonicalize_spec.1 _,
   rtuple_canonicalize_spec.2.1 _ _ (by decide)⟩

/-! ### Lemmas about adapter lookup -/

/-- A value that the `for (t, l) in self._jacks` header unpacks without
raising: a two-element tuple. -/
def isPairKey : PyVal → Bool
  | .tuple [_, _] => true
  | _ => false

/-- Registry keys produced by `_loadjack` from a well-formed (two or
more component) interface are pairs; lookups only ever unpack such
keys. -/
def PairKeys (js : List (PyVal × Jack)) : Prop :=
  ∀ p ∈ js, isPairKey p.1 = true

instance (js : List (PyVal × Jack)) : Decidable (PairKeys js) :=
  List.decidableBAll _ js

theorem isPairKey_iff (v : PyVal) :
    isPairKey v = true ↔ ∃ t l, v = PyVal.tuple [t, l] := by
  cases v with
  | str s => simp [isPairKey]
  | int n => simp [isPairKey]
  | pynone => simp [isPairKey]
  | list xs => simp [isPairKey]
  | tuple xs =>
      match xs with
      | [] => simp [isPairKey]
      | [t] => simp [isPairKey]
      | [t, l] => simp [isPairKey]
      | t :: l :: x :: xs => simp [isPairKey]

theorem jackFind_loc_irrelevant (js : List (PyVal × Jack)) (a0 : PyVal)
    (hk : PairKeys js) (rest rest' : List PyVal) :
    jackFind js (a0 :: rest) = jackFind js (a0 :: rest') := by
  induction js with
  | nil => rfl
  | cons p tl ih =>
      obtain ⟨t, l, hp⟩ := (isPairKey_iff p.1).1 (hk p (List.mem_cons_self p tl))
      obtain ⟨k, j⟩ := p
      simp only at hp
      subst hp
      have htl : PairKeys tl := fun q hq => hk q (List.mem_cons_of_mem _ hq)
      by_cases h : t = a0
      · simp [jackFind, h]
      · simp [jackFind, h, ih htl]

theorem jackFind_found (js : List (PyVal × Jack)) (a0 : PyVal)
    (rest : List PyVal) (hk : PairKeys js)
    (hex : ∃ p ∈ js, ∃ l, p.1 = PyVal.tuple [a0, l]) :
    ∃ j, jackFind js (a0 :: rest) = .ok (some j) ∧
      ∃ p ∈ js, p.2 = j ∧ ∃ l, p.1 = PyVal.tuple [a0, l] := by
  induction js with
  | nil => simp at hex
  | cons p tl ih =>
      obtain ⟨t, l, hp⟩ := (isPairKey_iff p.1).1 (hk p (List.mem_cons_self p tl))
      obtain ⟨k, j⟩ := p
      simp only at hp
      subst hp
      have htl : PairKeys tl := fun q hq => hk q (List.mem_cons_of_mem _ hq)
      by_cases h : t = a0
      · subst h
        exact ⟨j, by simp [jackFind], ⟨(PyVal.tuple [t, l], j), by simp, rfl,
          l, rfl⟩⟩
      · have hex' : ∃ p ∈ tl, ∃ l', p.1 = PyVal.tuple [a0, l'] := by
          rcases hex with ⟨q, hq, l', hq'⟩
          rcases List.mem_cons.1 hq with hq | hq
          · exfalso
            apply h
            rw [hq] at hq'
            simp only [PyVal.tuple.injEq, List.cons.injEq, and_true] at hq'
            exact hq'.1
          · exact ⟨q, hq, l', hq'⟩
        obtain ⟨j', hj', q, hq, hqj, l', hql⟩ := ih htl hex'
        refine ⟨j', ?_, q, List.mem_cons_of_mem _ hq, hqj, l', hql⟩
        simpa [jackFind, h] using hj'

theorem jackFind_not_found (js : List (PyVal × Jack)) (a0 : PyVal)
    (rest : List PyVal) (hk : PairKeys js)
    (hno : ∀ p ∈ js, ∀ l, p.1 ≠ PyVal.tuple [a0, l]) :
    jackFind js (a0 :: rest) = .ok none := by
  induction js with
  | nil => rfl
  | cons p tl ih =>
      obtain ⟨t, l, hp⟩ := (isPairKey_iff p.1).1 (hk p (List.mem_cons_self p tl))
      obtain ⟨k, j⟩ := p
      simp only at hp
      subst hp
      have htl : PairKeys tl := fun q hq => hk q (List.mem_cons_of_mem _ hq)
      have hne : t ≠ a0 := by
        intro h
        exact hno (PyVal.tuple [t, l], j) (by simp) l (by rw [h])
      simp only [jackFind, hne, if_false]
      exact ih htl fun q hq => hno q (List.mem_cons_of_mem _ hq)

/-- C1: adapter lookup matches on the transport-type component alone:
for any queried address with first component `a0`, the result does not
depend on the rest of the address; it is some registered jack stored
under a key whose transport type is `a0` whenever such a jack exists,
and `None` when no registered key carries transport type `a0`. -/
theorem jack_lookup_transport_only (r : Router) (a0 : PyVal)
    (rest rest' : List PyVal) (hk : PairKeys r.jacks) :
    (r.jack (a0 :: rest) = r.jack (a0 :: rest')) ∧
    ((∃ p ∈ r.jacks, ∃ l, p.1 = PyVal.tuple [a0, l]) →
      ∃ j, r.jack (a0 :: rest) = .ok (some j) ∧
        ∃ p ∈ r.jacks, p.2 = j ∧ ∃ l, p.1 = PyVal.tuple [a0, l]) ∧
    ((∀ p ∈ r.jacks, ∀ l, p.1 ≠ PyVal.tuple [a0, l]) →
      r.jack (a0 :: rest) = .ok none) :=
  ⟨jackFind_loc_irrelevant r.jacks a0 hk rest rest',
   fun hex => jackFind_found r.jacks a0 rest hk hex,
   fun hno => jackFind_not_found r.jacks a0 rest hk hno⟩

/-- A router holding two udp jacks at different locations, used to
instantiate the adapter-lookup theorem. -/
def twoUdpRouter : Router :=
  { runstate := "threaded",
    jacks :=
      [(PyVal.tuple [.str "udp", .str "9.9.9.9"],
        ⟨0, [.str "udp", .str "9.9.9.9"]⟩),
       (PyVal.tuple [.str "udp", .str "8.8.8.8"],
        ⟨1, [.str "udp", .str "8.8.8.8"]⟩)],
    clients := [], logging := true, log := [] }

/-- Witness for C1: querying `("udp", "1.1.1.1")` against two udp jacks
registered at other locations returns one of them. -/
theorem jack_lookup_transport_only_witness :
    ∃ j, twoUdpRouter.jack [PyVal.str "udp", PyVal.str "1.1.1.1"] =
        .ok (some j) ∧
      ∃ p ∈ twoUdpRouter.jacks, p.2 = j ∧
        ∃ l, p.1 = PyVal.tuple [PyVal.str "udp", l] :=
  (jack_lookup_transport_only twoUdpRouter (PyVal.str "udp")
      [PyVal.str "1.1.1.1"] [] (by decide)).2.1
    ⟨(PyVal.tuple [.str "udp", .str "9.9.9.9"],
      ⟨0, [.str "udp", .str "9.9.9.9"]⟩),
     by simp [twoUdpRouter], PyVal.str "9.9.9.9", rfl⟩

/-! ### Lemmas about `recv` -/

theorem log_add_runstate (r : Router) (s : String) :
    (r.log_add s).runstate = r.runstate := by
  simp only [Router.log_add]
  split <;> rfl

theorem log_add_jacks (r : Router) (s : String) :
    (r.log_add s).jacks = r.jacks := by
  simp only [Router.log_add]
  split <;> rfl

theorem log_add_clients (r : Router) (s : String) :
    (r.log_add s).clients = r.clients := by
  simp only [Router.log_add]
  split <;> rfl

theorem log_add_logging (r : Router) (s : String) :
    (r.log_add s).logging = r.logging := by
  simp only [Router.log_add]
  split <;> rfl

theorem log_add_client_lookup (r : Router) (s : String) (addr : List PyVal) :
    (r.log_add s).client addr = r.client addr := by
  simp [Router.client, log_add_clients]

theorem log_add_jack_lookup (r : Router) (s : String) (addr : List PyVal) :
    (r.log_add s).jack addr = r.jack addr := by
  simp [Router.jack, log_add_jacks]

/-- In every branch, the router state `recv` leaves behind is the input
state with the raw input logged. -/
theorem recv_state (r : Router) (msg : Msg) :
    (r.recv msg).1 = r.log_add msg.str := by
  simp only [Router.recv]
  cases msg.parsed with
  | none => rfl
  | some f =>
      by_cases ht : f.type = "r"
      · simp only [ht, if_true]
        cases (r.log_add msg.str).client f.addr with
        | some c => rfl
        | none =>
            cases (r.log_add msg.str).jack f.addr with
            | error e => rfl
            | ok o => cases o <;> rfl
      · by_cases hs : f.type = "s" <;> simp [ht, hs]

/-- The events and exception of a `recv` call do not depend on what is
already in the activity log. -/
theorem recv_events_log_add (r : Router) (s : String) (msg2 : Msg) :
    ((r.log_add s).recv msg2).2 = (r.recv msg2).2 := by
  simp only [Router.recv]
  cases msg2.parsed with
  | none => rfl
  | some f =>
      by_cases ht : f.type = "r"
      · simp only [ht, if_true, log_add_client_lookup, log_add_jack_lookup]
        cases r.client f.addr with
        | some c => rfl
        | none =>
            cases r.jack f.addr with
            | error e => rfl
            | ok o => cases o <;> rfl
      · by_cases hs : f.type = "s" <;> simp [ht, hs]

/-- C2: on a routed frame, client lookup runs first: when a client is
registered at the frame's (canonicalized, three-component) address, its
`route` is the one invoked, whatever adapters exist; the adapter lookup
decides the recipient only when no client matches. -/
theorem recv_client_priority (r : Router) (msg : Msg) (f : Frame)
    (hp : msg.parsed = some f) (ht : f.type = "r") :
    (∀ c, r.client f.addr = some c →
      r.recv msg =
        (r.log_add msg.str, [Event.route (.clientR c.cid)], none)) ∧
    (r.client f.addr = none → ∀ j, r.jack f.addr = .ok (some j) →
      r.recv msg =
        (r.log_add msg.str, [Event.route (.jackR j.jid)], none)) := by
  constructor
  · intro c hc
    simp [Router.recv, hp, ht, log_add_client_lookup, hc]
  · intro hc j hj
    simp [Router.recv, hp, ht, log_add_client_lookup, hc,
      log_add_jack_lookup, hj]

/-- A router with a client at `("local", None, "alice")` and a jack at
`("local", None)`. -/
def prioRouter : Router :=
  { runstate := "threaded",
    jacks :=
      [(PyVal.tuple [.str "local", .pynone], ⟨5, [.str "local", .pynone]⟩)],
    clients :=
      [(PyVal.tuple [.str "local", .pynone, .str "alice"],
        ⟨7, [.str "local", .pynone, .str "alice"]⟩)],
    logging := true, log := [] }

/-- A routed frame addressed to `("local", None, "alice")`. -/
def prioMsg : Msg :=
  ⟨"prio-frame", some ⟨"r", [.str "local", .pynone, .str "alice"]⟩⟩

/-- Witness for C2: with both a matching client and a matching jack
registered, the routed frame is delivered to the client. -/
theorem recv_client_priority_witness :
    prioRouter.recv prioMsg =
      (prioRouter.log_add prioMsg.str,
       [Event.route (.clientR 7)], none) :=
  (recv_client_priority prioRouter prioMsg
      ⟨"r", [.str "local", .pynone, .str "alice"]⟩ rfl rfl).1
    ⟨7, [.str "local", .pynone, .str "alice"]⟩ (by decide)

/-- C3: when parsing fails, `recv` still logs the raw input (when
logging is enabled), emits no `route` call, raises nothing, changes no
state but the log, and subsequent `recv` calls behave exactly as they
would have from the original router. -/
theorem recv_parse_failure (r : Router) (msg : Msg)
    (hp : msg.parsed = none) :
    r.recv msg = (r.log_add msg.str, [Event.printParseFail], none) ∧
    (r.logging = true → (r.recv msg).1.log = r.log ++ [msg.str]) ∧
    (∀ who, Event.route who ∉ (r.recv msg).2.1) ∧
    (r.recv msg).2.2 = none ∧
    (r.recv msg).1.runstate = r.runstate ∧
    (r.recv msg).1.jacks = r.jacks ∧
    (r.recv msg).1.clients = r.clients ∧
    (r.recv msg).1.logging = r.logging ∧
    (∀ msg2, ((r.recv msg).1.recv msg2).2 = (r.recv msg2).2) := by
  have h1 : r.recv msg =
      (r.log_add msg.str, [Event.printParseFail], (none : Option PyErr)) := by
    simp [Router.recv, hp]
  refine ⟨h1, ?_, ?_, ?_, ?_, ?_, ?_, ?_, ?_⟩
  · intro hl
    rw [h1]
    simp [Router.log_add, hl]
  · intro who
    rw [h1]
    simp
  · rw [h1]
  · rw [h1]
    exact log_add_runstate r msg.str
  · rw [h1]
    exact log_add_jacks r msg.str
  · rw [h1]
    exact log_add_clients r msg.str
  · rw [h1]
    exact log_add_logging r msg.str
  · intro msg2
    rw [h1]
    exact recv_events_log_add r msg.str msg2

/-- An idle router with empty registries. -/
def emptyRouter : Router :=
  { runstate := "threaded", jacks := [], clients := [], logging := true,
    log := [] }

/-- An input the frame parser rejects. -/
def badMsg : Msg := ⟨"garbage", none⟩

/-- Witness for C3: feeding the unparsable input to the empty router
logs it, emits only the parse-failure diagnostic, and raises nothing. -/
theorem recv_parse_failure_witness :
    emptyRouter.recv badMsg =
      (emptyRouter.log_add badMsg.str, [Event.printParseFail], none) :=
  (recv_parse_failure emptyRouter badMsg rfl).1

/-! ### Lifecycle and registration -/

/-- C4: starting from `stopped`, two consecutive `run("threaded")` calls
start each registered adapter exactly once (the second call starts
nothing), and `run("stopped")` closes every registered adapter and
works from the never-started state. -/
theorem run_lifecycle (r : Router) (h : r.runstate = "stopped") :
    (r.run "threaded").2 ++ ((r.run "threaded").1.run "threaded").2 =
      r.jacks.map (fun p => Event.runThreaded p.2.jid) ∧
    ((r.run "threaded").1.run "threaded").2 = [] ∧
    (r.run "stopped").2 = r.jacks.map (fun p => Event.close p.2.jid) ∧
    (r.run "stopped").1.runstate = "stopped" := by
  refine ⟨?_, ?_, ?_, ?_⟩ <;>
    simp [Router.run, Router.thread_all, Router.stop_all, h]

/-- A stopped router owning a single jack. -/
def stoppedRouter : Router :=
  { runstate := "stopped",
    jacks := [(PyVal.tuple [.str "udp", .pynone], ⟨3, [.str "udp", .pynone]⟩)],
    clients := [], logging := true, log := [] }

/-- Witness for C4 on the one-jack stopped router. -/
theorem run_lifecycle_witness :
    (stoppedRouter.run "threaded").2 ++
        ((stoppedRouter.run "threaded").1.run "threaded").2 =
      [Event.runThreaded 3] ∧
    (stoppedRouter.run "stopped").2 = [Event.close 3] :=
  ⟨((run_lifecycle stoppedRouter rfl).1).trans (by decide),
   ((run_lifecycle stoppedRouter rfl).2.2.1).trans (by decide)⟩

theorem dictGet_insert_self {K V : Type} [DecidableEq K] (k : K) (v : V)
    (d : List (K × V)) : dictGet k (dictInsert k v d) = some v := by
  induction d with
  | nil => simp [dictGet, dictInsert]
  | cons p rest ih =>
      obtain ⟨k', v'⟩ := p
      by_cases h : k = k'
      · simp [dictGet, dictInsert, h]
      · simp [dictGet, dictInsert, h, ih]

/-- C8: registering an adapter stores it under the canonicalized
two-component key, leaves clients and runstate alone, and calls its
`run_threaded` exactly when the router is threaded at that moment. -/
theorem loadjack_spec (r : Router) (j : Jack) :
    dictGet (sliceKey 2 j.interface) (r.loadjack j).1.jacks = some j ∧
    (r.loadjack j).1.clients = r.clients ∧
    (r.loadjack j).1.runstate = r.runstate ∧
    (r.loadjack j).2 =
      (if r.runstate = "threaded" then [Event.runThreaded j.jid] else []) ∧
    (Event.runThreaded j.jid ∈ (r.loadjack j).2 ↔
      r.runstate = "threaded") := by
  refine ⟨?_, rfl, rfl, rfl, ?_⟩
  · simp [Router.loadjack, dictGet_insert_self]
  · simp only [Router.loadjack]
    by_cases h : r.runstate = "threaded" <;> simp [h]

/-- C6: registering a client, then looking up any address with the same
canonical three-component key, returns that client; a second client
registered at the same key replaces the first. -/
theorem client_register_replace (r : Router) (c1 c2 : Client)
    (addr : List PyVal)
    (h1 : sliceKey 3 addr = sliceKey 3 c1.interface)
    (h2 : sliceKey 3 c2.interface = sliceKey 3 c1.interface) :
    (r.loadclient c1).client addr = some c1 ∧
    ((r.loadclient c1).loadclient c2).client addr = some c2 := by
  constructor
  · simp only [Router.loadclient, Router.client, h1]
    exact dictGet_insert_self _ _ _
  · simp only [Router.loadclient, Router.client, h1, h2]
    exact dictGet_insert_self _ _ _

/-- Witness for C6: a nested-list interface and a nested-tuple lookup
address with the same canonical key, and a replacing registration. -/
theorem client_register_replace_witness :
    (emptyRouter.loadclient ⟨1, [.str "local", .pynone, .str "bob"]⟩).client
        [.str "local", .pynone, .str "bob", .str "extra"] =
      some ⟨1, [.str "local", .pynone, .str "bob"]⟩ ∧
    ((emptyRouter.loadclient
          ⟨1, [.str "local", .pynone, .str "bob"]⟩).loadclient
        ⟨2, [.str "local", .pynone, .str "bob"]⟩).client
        [.str "local", .pynone, .str "bob", .str "extra"] =
      some ⟨2, [.str "local", .pynone, .str "bob"]⟩ :=
  client_register_replace emptyRouter
    ⟨1, [.str "local", .pynone, .str "bob"]⟩
    ⟨2, [.str "local", .pynone, .str "bob"]⟩
    [.str "local", .pynone, .str "bob", .str "extra"]
    (by decide) (by decide)

/-! ### The runstate invariant -/

/-- Every `run` call in the sequence requests one of the two documented
levels. -/
def opsRunLevelsValid (ops : List Op) : Bool :=
  ops.all fun op =>
    match op with
    | .runOp l => l == "threaded" || l == "stopped"
    | _ => true

theorem applyOp_runstate_valid (r : Router) (op : Op)
    (hr : r.runstate = "stopped" ∨ r.runstate = "threaded")
    (hop : ∀ l, op = Op.runOp l → l = "threaded" ∨ l = "stopped") :
    (applyOp r op).runstate = "stopped" ∨
    (applyOp r op).runstate = "threaded" := by
  cases op with
  | recvOp m =>
      simpa [applyOp, recv_state, log_add_runstate] using hr
  | loadjackOp j => simpa [applyOp, Router.loadjack] using hr
  | loadclientOp c => simpa [applyOp, Router.loadclient] using hr
  | runOp l =>
      have := hop l rfl
      simp only [applyOp, Router.run]
      tauto

theorem applyOps_runstate_valid (ops : List Op) (r : Router)
    (hr : r.runstate = "stopped" ∨ r.runstate = "threaded")
    (hops : opsRunLevelsValid ops = true) :
    (applyOps r ops).runstate = "stopped" ∨
    (applyOps r ops).runstate = "threaded" := by
  induction ops generalizing r with
  | nil => exact hr
  | cons op tl ih =>
      simp only [opsRunLevelsValid, List.all_cons, Bool.and_eq_true] at hops
      have hstep := applyOp_runstate_valid r op hr (by
        intro l hl
        subst hl
        simpa using hops.1)
      have := ih (applyOp r op) hstep (by
        simpa [opsRunLevelsValid] using hops.2)
      simpa [applyOps, List.foldl_cons] using this

/-- Counterexample to C7 as stated: `run` records whatever level string
it is handed, so the exposed operation `run("banana")` drives the
runstate to a third value. -/
theorem runstate_third_value_reachable :
    (applyOps (Router.init [] []).1 [Op.runOp "banana"]).runstate =
      "banana" ∧
    ("banana" : String) ≠ "stopped" ∧
    ("banana" : String) ≠ "threaded" :=
  ⟨rfl, by decide, by decide⟩

/-- C7 (amended): along every operation sequence whose `run` calls only
request the documented levels `"threaded"` and `"stopped"`, the
runstate stays within those two values. -/
theorem runstate_binary_invariant (js : List Jack) (cs : List Client)
    (ops : List Op) (hops : opsRunLevelsValid ops = true) :
    (applyOps (Router.init js cs).1 ops).runstate = "stopped" ∨
    (applyOps (Router.init js cs).1 ops).runstate = "threaded" := by
  apply applyOps_runstate_valid ops _ _ hops
  right
  simp [Router.init, Router.run]

/-- Witness for the amended C7 on a concrete operation sequence. -/
theorem runstate_binary_invariant_witness :
    (applyOps (Router.init [] []).1
        [Op.runOp "stopped", Op.recvOp ⟨"x", none⟩,
         Op.runOp "threaded"]).runstate = "stopped" ∨
    (applyOps (Router.init [] []).1
        [Op.runOp "stopped", Op.recvOp ⟨"x", none⟩,
         Op.runOp "threaded"]).runstate = "threaded" :=
  runstate_binary_invariant [] []
    [Op.runOp "stopped", Op.recvOp ⟨"x", none⟩, Op.runOp "threaded"]
    (by decide)

/-! ### The empty-address crash -/

/-- C10: with at least one adapter registered (under well-formed pair
keys) and no client under the empty canonical key, a routed frame with
an empty address makes `recv` raise `IndexError` from `addr[0]` in the
adapter lookup, outside both the parse `try`/`except` and the `Guard`,
so the exception reaches `recv`'s caller and no recipient is invoked. -/
theorem recv_empty_address_raises (r : Router) (msg : Msg) (f : Frame)
    (hp : msg.parsed = some f) (ht : f.type = "r") (ha : f.addr = [])
    (hj : r.jacks ≠ []) (hk : PairKeys r.jacks)
    (hc : dictGet (PyVal.tuple []) r.clients = none) :
    r.recv msg = (r.log_add msg.str, [], some PyErr.indexError) := by
  have hcl : r.client f.addr = none := by
    rw [ha]
    simpa [Router.client, sliceKey, rtuple, rtupleList] using hc
  have hjf : r.jack f.addr = .error .indexError := by
    rw [ha]
    cases hjs : r.jacks with
    | nil => exact absurd hjs hj
    | cons p tl =>
        obtain ⟨t, l, hp1⟩ := (isPairKey_iff p.1).1
          (hk p (hjs ▸ List.mem_cons_self p tl))
        obtain ⟨k, j⟩ := p
        simp only at hp1
        subst hp1
        simp [Router.jack, hjs, jackFind]
  simp [Router.recv, hp, ht, log_add_client_lookup, hcl,
    log_add_jack_lookup, hjf]

/-- Witness for C10: a router with one registered udp jack crashes with
`IndexError` on a routed frame whose address is empty. -/
theorem recv_empty_address_raises_witness :
    stoppedRouter.recv ⟨"empty-addr", some ⟨"r", []⟩⟩ =
      (stoppedRouter.log_add "empty-addr", [], some PyErr.indexError) :=
  recv_empty_address_raises stoppedRouter ⟨"empty-addr", some ⟨"r", []⟩⟩
    ⟨"r", []⟩ rfl rfl rfl (by decide) (by decide) (by decide)

/-! ### Identity deserialization (`ejtp/identity/core.py`) -/

/-- `del d[k]`: drop the entry stored under `k`. -/
def dictDelete (k : String) (d : List (String × PyVal)) :
    List (String × PyVal) :=
  d.filter fun p => !(p.1 == k)

/-- `Identity.__init__`: the contents dict holds `name`, `encryptor`
and `location`, updated with the remaining keyword arguments. -/
def mkIdentityContents (name encryptor location : PyVal)
    (kwargs : List (String × PyVal)) : List (String × PyVal) :=
  kwargs.foldl (fun d p => dictInsert p.1 p.2 d)
    [("name", name), ("encryptor", encryptor), ("location", location)]

/-- `deserialize` from `identity/core.py`: check `name`, `location`,
`encryptor` for presence in that order, raising `ValueError` naming the
first missing one; otherwise build the `Identity` from the three fields
and the remaining entries. -/
def deserialize (d : List (String × PyVal)) :
    Except String (List (String × PyVal)) :=
  match dictGet "name" d with
  | none => .error "Missing ident property: 'name'"
  | some name =>
      match dictGet "location" d with
      | none => .error "Missing ident property: 'location'"
      | some location =>
          match dictGet "encryptor" d with
          | none => .error "Missing ident property: 'encryptor'"
          | some encryptor =>
              .ok (mkIdentityContents name encryptor location
                (dictDelete "name"
                  (dictDelete "location" (dictDelete "encryptor" d))))

/-- C9: identity deserialization fails naming the first missing field,
checking `name`, then `location`, then `encryptor`; it succeeds exactly
when all three are present. -/
theorem deserialize_missing_field_order (d : List (String × PyVal)) :
    ((dictGet "name" d).isNone = true →
      deserialize d = .error "Missing ident property: 'name'") ∧
    ((dictGet "name" d).isSome = true →
      (dictGet "location" d).isNone = true →
      deserialize d = .error "Missing ident property: 'location'") ∧
    ((dictGet "name" d).isSome = true →
      (dictGet "location" d).isSome = true →
      (dictGet "encryptor" d).isNone = true →
      deserialize d = .error "Missing ident property: 'encryptor'") ∧
    ((∃ ident, deserialize d = .ok ident) ↔
      ((dictGet "name" d).isSome = true ∧
       (dictGet "location" d).isSome = true ∧
       (dictGet "encryptor" d).isSome = true)) := by
  cases hn : dictGet "name" d <;>
    cases hl : dictGet "location" d <;>
      cases he : dictGet "encryptor" d <;>
        simp [deserialize, hn, hl, he]

/-- Witness for C9: a dict holding only `name` is rejected naming
`location`. -/
theorem deserialize_missing_field_order_witness :
    deserialize [("name", PyVal.str "Calvin")] =
      .error "Missing ident property: 'location'" :=
  (deserialize_missing_field_order [("name", PyVal.str "Calvin")]).2.1
    (by decide) (by decide)

